import Mathlib

/-!
Shallow embedding of the job classification and paginated query engine of
`src/app.py` (function `monitor_ui`), together with proofs about it.

The embedding keeps the source's names where Lean allows it:
`critical_pattern` becomes the phrase lists `p1`/`p2a`/`p2b`/`p3`/`p4` and the
matcher `critSearch`; `crit_mask`/`crit_count`/`ok_count` become `isCrit` and
the `assemble` fields; the session keys `show_only_crit`/`show_only_ok`/
`last_toggle` become the `FState` fields; the pagination arithmetic of lines
167-168 and 233-250 becomes `offsetOf`, `lastPage`, `prevDisabled`,
`nextDisabled`, `gotoPage`.
-/

namespace EdiMonitor

/-- A Python value as it can appear in the `MotivoRechazo` column: `None`, a
string, an integer or a boolean.  The source never assumes the column is a
string: it coerces with `astype(str)` (line 181) or `str(val or "")`
(line 271). -/
inductive PyVal where
  | vnone
  | vstr (s : String)
  | vint (n : Int)
  | vbool (b : Bool)
deriving DecidableEq

/-- Python `str(v)` for the values of `PyVal` (what `astype(str)` applies per
element on line 181). -/
def pyRepr : PyVal → String
  | .vnone => "None"
  | .vstr s => s
  | .vint n => toString n
  | .vbool b => if b then "True" else "False"

/-- Python truthiness of a `PyVal` (`None`, `""`, `0` and `False` are falsy),
used by the `val or ""` coercion on line 271. -/
def truthy : PyVal → Bool
  | .vnone => false
  | .vstr s => !s.data.isEmpty
  | .vint n => n != 0
  | .vbool b => b

/-- Characters matched by the regex class `\s` of `critical_pattern`: the
pattern is a `str` pattern without `re.ASCII`, so `\s` matches the full
Unicode whitespace set (CPython's `Py_UNICODE_ISSPACE`): tab through
carriage return, the separators U+001C-U+001F, space, next line (U+0085),
no-break space (U+00A0), Ogham space mark (U+1680), the U+2000-U+200A
spaces, line separator (U+2028), paragraph separator (U+2029), narrow
no-break space (U+202F), medium mathematical space (U+205F) and ideographic
space (U+3000). -/
def wsChar (c : Char) : Bool :=
  (9 ≤ c.toNat && c.toNat ≤ 13) || (28 ≤ c.toNat && c.toNat ≤ 31) ||
  c.toNat = 32 || c.toNat = 133 || c.toNat = 160 || c.toNat = 5760 ||
  (8192 ≤ c.toNat && c.toNat ≤ 8202) || c.toNat = 8232 || c.toNat = 8233 ||
  c.toNat = 8239 || c.toNat = 8287 || c.toNat = 12288

/-- Case fold under which `re.IGNORECASE` compares an input character with
the ASCII literals of the pattern of line 180: ASCII upper case folds to
lower case, and the characters that Python's `sre` treats as case-equivalent
to an ASCII letter fold to that letter — dotted and dotless capital I
(U+0130, U+0131) to `i`, long s (U+017F) to `s`, the Kelvin sign (U+212A)
to `k`.  Any other character can never match an ASCII pattern letter and is
kept unchanged (in particular no whitespace character is moved into or out
of the `\s` set by folding). -/
def pyFoldChar (c : Char) : Char :=
  if 65 ≤ c.toNat && c.toNat ≤ 90 then Char.ofNat (c.toNat + 32)
  else if c.toNat = 304 || c.toNat = 305 then 'i'
  else if c.toNat = 383 then 's'
  else if c.toNat = 8490 then 'k'
  else c

/-- Folded character list of a string: the view under which the
case-insensitive search of line 181 (`case=False` / `re.IGNORECASE`)
compares the text with the pattern. -/
def lowerStr (s : String) : List Char := s.data.map pyFoldChar

/-- First alternative of `critical_pattern` (line 180), lower-cased. -/
def p1 : List Char := "error al dar de alta la empresa".data

/-- Literal part of the second alternative before `\.\s*-\s*` is consumed:
the text up to and including the escaped dot, lower-cased. -/
def p2a : List Char := "error en el alta de la empresa.".data

/-- Literal tail of the second alternative after the `\s*-\s*` gap,
lower-cased. -/
def p2b : List Char := "invalid argument supplied for foreach()".data

/-- Third alternative of `critical_pattern`, lower-cased. -/
def p3 : List Char := "no existe la empresa, no se creo el usuario".data

/-- Fourth alternative of `critical_pattern`, lower-cased. -/
def p4 : List Char := "no existe el usuario, no se creo el usuario".data

/-- Strip the pattern `p` from the front of `l`; `some r` exactly when
`l = p ++ r`. -/
def stripPre : List Char → List Char → Option (List Char)
  | [], l => some l
  | _ :: _, [] => none
  | p :: ps, c :: cs => if c = p then stripPre ps cs else none

/-- Does `p` start the list `l`? -/
def isPre (p l : List Char) : Bool := (stripPre p l).isSome

/-- Match of the second `critical_pattern` alternative anchored at the head of
`l`: the literal `p2a`, then `\s*`, `-`, `\s*` (greedy, which coincides with
the regex since `-` and the head of `p2b` are not whitespace), then `p2b`. -/
def p2At (l : List Char) : Bool :=
  match stripPre p2a l with
  | none => false
  | some r =>
    match r.dropWhile wsChar with
    | [] => false
    | c :: r2 => c = '-' && isPre p2b (r2.dropWhile wsChar)

/-- Match of any `critical_pattern` alternative anchored at the head of `l`. -/
def critAt (l : List Char) : Bool :=
  isPre p1 l || p2At l || isPre p3 l || isPre p4 l

/-- Scan of every match position, as a regex `search` does. -/
def anySuffix (f : List Char → Bool) : List Char → Bool
  | [] => f []
  | c :: cs => f (c :: cs) || anySuffix f cs

/-- Unanchored search for `critical_pattern` over a lower-cased text. -/
def critSearch (l : List Char) : Bool := anySuffix critAt l

/-- Case-insensitive substring test on already lower-cased lists (executable
counterpart of "the text contains the phrase"). -/
def containsL (p : List Char) (l : List Char) : Bool := anySuffix (isPre p) l

/-- The per-row boolean of `crit_mask` (line 181):
`astype(str).str.contains(critical_pattern, case=False)`. -/
def isCritVal (v : PyVal) : Bool := critSearch (lowerStr (pyRepr v))

/-- Derived classification of one rejection reason. -/
inductive Classification where
  | Critical
  | Ok
deriving DecidableEq

/-- Classification of one rejection-reason value, exactly as the mask of
line 181 decides it. -/
def classify (v : PyVal) : Classification :=
  if isCritVal v then .Critical else .Ok

/-- Argument of the row-highlighting search of line 271: `val or ""`. -/
def renderInput (v : PyVal) : PyVal := if truthy v then v else .vstr ""

/-- Per-row highlighting decision of lines 260 and 271:
`critical_re.search(str(r.get('Respuestas') or ""))` with
`re.compile(critical_pattern, re.IGNORECASE)`; `row-critical` when true,
`row-ok` otherwise. -/
def rowIsCritical (v : PyVal) : Bool := critSearch (lowerStr (pyRepr (renderInput v)))

/-- One row of the page query `SQL_PAGE` (lines 155-165). `fechaAlta` is a
timestamp measured in days (a rational, so that a date `d` owns the
timestamps of `[d, d+1)`). -/
structure Job where
  id : Int
  fechaAlta : ℚ
  plataforma : String
  metodo : String
  motivoRechazo : PyVal
  idEmpresa : Option Int
  codEmpre : Option String
  razonSocial : Option String
  cuit : Option String
deriving DecidableEq

/-- The `crit_mask` predicate of line 181 applied to one row. -/
def isCrit (j : Job) : Bool := isCritVal j.motivoRechazo

/-- The assembled page of one refresh (spec name `PageResult`). -/
structure PageResult where
  totalMatchingRows : Nat
  rows : List Job
  crit_count : Nat
  ok_count : Nat
deriving DecidableEq

/-- Assembly of lines 176-183: the raw page rows are kept in store order, and
`crit_count = int(crit_mask.sum())`, `ok_count = int(len(df) - crit_count)`
are computed on the page's own rows. -/
def assemble (rawRows : List Job) (total : Nat) : PageResult :=
  { totalMatchingRows := total
    rows := rawRows
    crit_count := rawRows.countP isCrit
    ok_count := rawRows.length - rawRows.countP isCrit }

/-- The value a checkbox toggle refers to (`'crit'` / `'ok'` of line 199). -/
inductive Toggle where
  | crit
  | ok
deriving DecidableEq

/-- The session filter state: keys `show_only_crit`, `show_only_ok` and
`last_toggle` of lines 197-199. -/
structure FState where
  show_only_crit : Bool
  show_only_ok : Bool
  last_toggle : Option Toggle
deriving DecidableEq

/-- Defensive resolution of lines 201-204: when both toggles are on, keep the
one named by `last_toggle or 'crit'` and force the other off. -/
def resolve (s : FState) : FState :=
  if s.show_only_crit && s.show_only_ok then
    match s.last_toggle.getD .crit with
    | .crit => { s with show_only_ok := false }
    | .ok => { s with show_only_crit := false }
  else s

/-- One rerun's checkbox interactions: `none` means the operator left the box
untouched, `some b` that the box now holds `b`. -/
structure UserInput where
  critBox : Option Bool
  okBox : Option Bool

/-- The critical checkbox of line 211: it is disabled (interaction ignored)
while `show_only_ok` is active. -/
def critBoxStep (u : UserInput) (s : FState) : FState :=
  if s.show_only_ok then s
  else
    match u.critBox with
    | none => s
    | some b => { s with show_only_crit := b }

/-- The ok checkbox of line 213: disabled while `show_only_crit` is active. -/
def okBoxStep (u : UserInput) (s : FState) : FState :=
  if s.show_only_crit then s
  else
    match u.okBox with
    | none => s
    | some b => { s with show_only_ok := b }

/-- The `last_toggle` bookkeeping of lines 215-220, with `prevCrit`/`prevOk`
the values captured on lines 206-207. -/
def updateLast (prevCrit prevOk : Bool) (s : FState) : FState :=
  if s.show_only_crit && !prevCrit then { s with last_toggle := some .crit }
  else if s.show_only_ok && !prevOk then { s with last_toggle := some .ok }
  else if (!s.show_only_crit && prevCrit) || (!s.show_only_ok && prevOk) then
    { s with last_toggle := none }
  else s

/-- One script run over the filter-state section (lines 201-220), read
sequentially: resolve, snapshot `prev_*`, apply the (guard-disabled) checkbox
interactions, update `last_toggle`.  The display step of lines 223-228 then
observes the resulting flags. -/
def scriptRun (u : UserInput) (s : FState) : FState :=
  updateLast (resolve s).show_only_crit (resolve s).show_only_ok
    (okBoxStep u (critBoxStep u (resolve s)))

/-- A whole session: the runs folded over an initial state. -/
def runSeq (us : List UserInput) (s0 : FState) : FState :=
  us.foldl (fun s u => scriptRun u s) s0

/-- The display subset selection of lines 223-228. -/
def displayRows (s : FState) (df : List Job) : List Job :=
  if s.show_only_crit then df.filter isCrit
  else if s.show_only_ok then df.filter (fun j => !isCrit j)
  else df

/-- State showing only critical rows. -/
def onlyCritState : FState := ⟨true, false, some .crit⟩

/-- State showing only ok rows. -/
def onlyOkState : FState := ⟨false, true, some .ok⟩

/-- State with neither filter active. -/
def neitherState : FState := ⟨false, false, none⟩

/-- Offset computation of line 168: `max((page-1)*page_size, 0)`. -/
def offsetOf (page page_size : Nat) : Nat := max ((page - 1) * page_size) 0

/-- Disabled condition of the previous-page button (line 233): `page <= 1`. -/
def prevDisabled (page : Nat) : Bool := decide (page ≤ 1)

/-- Disabled condition of the next-page button (line 237):
`offset + page_size >= total`. -/
def nextDisabled (offset page_size total : Nat) : Bool :=
  decide (total ≤ offset + page_size)

/-- Last admissible page, the `max_value` of the jump control (line 244):
`max((total + page_size - 1) // page_size, 1)`. -/
def lastPage (total page_size : Nat) : Nat :=
  max ((total + page_size - 1) / page_size) 1

/-- Modelled from the spec of the bounded numeric widget the source uses for
the jump control (lines 241-247): a `number_input` with `min_value`/
`max_value` constrains the committed value into that interval (out-of-range
input is clamped, not rejected); the code itself raises no error. -/
def numberInputClamp (lo hi v : Nat) : Nat := min (max v lo) hi

/-- Page shown after the jump button `Ir` (lines 241-250): the bounded input
yields a value in `[1, lastPage]` and the button assigns it unconditionally. -/
def gotoPage (total page_size requested : Nat) : Nat :=
  numberInputClamp 1 (lastPage total page_size) requested

/-- Default window start of line 144: `today - 30 days`. -/
def defaultWindowStart (today : Int) : Int := today - 30

/-- Default window end of line 143: `today + 1 day`. -/
def defaultWindowEnd (today : Int) : Int := today + 1

/-- The shared `WHERE` window condition of `SQL_COUNT` and `SQL_PAGE`
(lines 152 and 161): `FechaAlta >= :start AND FechaAlta < :end`. -/
def inWindow (start stop : ℚ) (ts : ℚ) : Bool :=
  decide (start ≤ ts) && decide (ts < stop)

/-- The platform condition `(:plat IS NULL OR j.Plataforma = :plat)` of
lines 153 and 162. -/
def platPred (plat : Option String) (j : Job) : Bool :=
  match plat with
  | none => true
  | some p => j.plataforma == p

/-- Row predicate of the count query `SQL_COUNT` under the default window. -/
def countRowPred (today : Int) (plat : Option String) (j : Job) : Bool :=
  inWindow (defaultWindowStart today : Int) (defaultWindowEnd today : Int) j.fechaAlta
    && platPred plat j

/-- Row predicate of the page query `SQL_PAGE` under the default window. -/
def pageRowPred (today : Int) (plat : Option String) (j : Job) : Bool :=
  inWindow (defaultWindowStart today : Int) (defaultWindowEnd today : Int) j.fechaAlta
    && platPred plat j

/-- Total row count of line 171: `conn.execute(...).scalar() or 0`, where the
scalar may be missing (`None`). -/
def totalFromScalar (r : Option Nat) : Nat :=
  match r with
  | none => 0
  | some v => if v = 0 then 0 else v

/-- The second critical phrase exactly as the spec words it, as one literal
string (lower-cased): a dot, one space, a dash, one space. -/
def p2lit : List Char :=
  "error en el alta de la empresa. - invalid argument supplied for foreach()".data

/-- A reason text that the regex of line 180 matches although it contains
none of the spec's four literal phrases: no space between the dot and the
dash, which `\.\s*-\s*` accepts. -/
def cexReason : String :=
  "Error en el alta de la empresa.- Invalid argument supplied for foreach()"

/-- A concrete critically-failed job, for witnesses. -/
def exJob : Job :=
  ⟨1, 0, "EDI", "POST", .vstr "Error al dar de alta la empresa", none, none, none, none⟩

/-- A concrete job created today (timestamp half a day in), for witnesses. -/
def windowJob : Job :=
  ⟨2, 1 / 2, "EDI", "POST", .vnone, none, none, none, none⟩

/-! ## Helper lemmas about the matcher -/

theorem stripPre_eq_some (p : List Char) :
    ∀ l r : List Char, stripPre p l = some r ↔ l = p ++ r := by
  induction p with
  | nil => intro l r; simp [stripPre]
  | cons x xs ih =>
    intro l r
    cases l with
    | nil => simp [stripPre]
    | cons c cs =>
      simp only [stripPre, List.cons_append, List.cons.injEq]
      by_cases h : c = x
      · simp [h, ih]
      · simp [h]

theorem isPre_iff (p l : List Char) : isPre p l = true ↔ ∃ r, l = p ++ r := by
  simp [isPre, Option.isSome_iff_exists, stripPre_eq_some]

theorem anySuffix_iff (f : List Char → Bool) (L : List Char) :
    anySuffix f L = true ↔ ∃ a t, L = a ++ t ∧ f t = true := by
  induction L with
  | nil =>
    simp only [anySuffix]
    constructor
    · intro h; exact ⟨[], [], rfl, h⟩
    · rintro ⟨a, t, he, hf⟩
      obtain ⟨ha, ht⟩ := List.append_eq_nil.1 he.symm
      subst ha; subst ht; exact hf
  | cons c cs ih =>
    simp only [anySuffix, Bool.or_eq_true, ih]
    constructor
    · rintro (h | ⟨a, t, he, hf⟩)
      · exact ⟨[], c :: cs, rfl, h⟩
      · exact ⟨c :: a, t, by rw [List.cons_append, he], hf⟩
    · rintro ⟨a, t, he, hf⟩
      cases a with
      | nil =>
        left
        rw [List.nil_append] at he
        rw [← he] at hf
        exact hf
      | cons x xs =>
        right
        rw [List.cons_append] at he
        injection he with h1 h2
        exact ⟨xs, t, h2, hf⟩

theorem containsL_iff (p L : List Char) :
    containsL p L = true ↔ ∃ a b, L = a ++ (p ++ b) := by
  unfold containsL
  rw [anySuffix_iff]
  constructor
  · rintro ⟨a, t, he, hf⟩
    obtain ⟨b, hb⟩ := (isPre_iff p t).1 hf
    exact ⟨a, b, by rw [he, hb]⟩
  · rintro ⟨a, b, he⟩
    exact ⟨a, p ++ b, he, (isPre_iff p (p ++ b)).2 ⟨b, rfl⟩⟩

theorem dropWhile_ws_append (w l : List Char) (hw : ∀ c ∈ w, wsChar c = true) :
    List.dropWhile wsChar (w ++ l) = List.dropWhile wsChar l := by
  induction w with
  | nil => rfl
  | cons x xs ih =>
    rw [List.cons_append, List.dropWhile_cons, hw x (List.mem_cons_self x xs)]
    simp only [if_true]
    exact ih fun c hc => hw c (List.mem_cons_of_mem x hc)

theorem dropWhile_cons_neg (c : Char) (l : List Char) (hc : wsChar c = false) :
    List.dropWhile wsChar (c :: l) = c :: l := by
  rw [List.dropWhile_cons, hc]
  simp

theorem all_takeWhile_ws (l : List Char) :
    ∀ c ∈ l.takeWhile wsChar, wsChar c = true := by
  induction l with
  | nil => intro c hc; cases hc
  | cons x xs ih =>
    intro c hc
    rw [List.takeWhile_cons] at hc
    by_cases hx : wsChar x = true
    · rw [if_pos hx] at hc
      rcases List.mem_cons.1 hc with h | h
      · subst h; exact hx
      · exact ih c h
    · rw [if_neg hx] at hc
      cases hc

theorem stripPre_append (p r : List Char) : stripPre p (p ++ r) = some r :=
  (stripPre_eq_some p (p ++ r) r).2 rfl

theorem p2At_iff (l : List Char) :
    p2At l = true ↔ ∃ w1 w2 b,
      l = p2a ++ (w1 ++ ('-' :: (w2 ++ (p2b ++ b)))) ∧
      w1.all wsChar = true ∧ w2.all wsChar = true := by
  constructor
  · intro h
    replace h : (match stripPre p2a l with
      | none => false
      | some r =>
        match r.dropWhile wsChar with
        | [] => false
        | c :: r2 => decide (c = '-') && isPre p2b (r2.dropWhile wsChar)) = true := h
    rcases hsp : stripPre p2a l with _ | r
    · rw [hsp] at h; simp at h
    · rw [hsp] at h
      replace h : (match r.dropWhile wsChar with
        | [] => false
        | c :: r2 => decide (c = '-') && isPre p2b (r2.dropWhile wsChar)) = true := h
      rcases hd : r.dropWhile wsChar with _ | ⟨c, r2⟩
      · rw [hd] at h; simp at h
      · rw [hd] at h
        replace h : (decide (c = '-') && isPre p2b (r2.dropWhile wsChar)) = true := h
        rw [Bool.and_eq_true, decide_eq_true_eq] at h
        obtain ⟨hc, hp⟩ := h
        subst hc
        obtain ⟨b, hb⟩ := (isPre_iff _ _).1 hp
        have hl : l = p2a ++ r := (stripPre_eq_some _ _ _).1 hsp
        have hsplitr : r.takeWhile wsChar ++ r.dropWhile wsChar = r :=
          List.takeWhile_append_dropWhile wsChar r
        have hreq : r = r.takeWhile wsChar ++ ('-' :: r2) := by
          conv_lhs => rw [← hsplitr]
          rw [hd]
        have hsplitr2 : r2.takeWhile wsChar ++ r2.dropWhile wsChar = r2 :=
          List.takeWhile_append_dropWhile wsChar r2
        have hr2 : r2 = r2.takeWhile wsChar ++ (p2b ++ b) := by
          conv_lhs => rw [← hsplitr2]
          rw [hb]
        refine ⟨r.takeWhile wsChar, r2.takeWhile wsChar, b, ?_, ?_, ?_⟩
        · have h3 : r = r.takeWhile wsChar ++ ('-' :: (r2.takeWhile wsChar ++ (p2b ++ b))) :=
            hreq.trans (by rw [← hr2])
          rw [hl, ← h3]
        · exact List.all_eq_true.2 (all_takeWhile_ws r)
        · exact List.all_eq_true.2 (all_takeWhile_ws r2)
  · rintro ⟨w1, w2, b, hl, hw1, hw2⟩
    have hw1' : ∀ c ∈ w1, wsChar c = true := List.all_eq_true.1 hw1
    have hw2' : ∀ c ∈ w2, wsChar c = true := List.all_eq_true.1 hw2
    subst hl
    show (match stripPre p2a (p2a ++ (w1 ++ ('-' :: (w2 ++ (p2b ++ b))))) with
      | none => false
      | some r =>
        match r.dropWhile wsChar with
        | [] => false
        | c :: r2 => decide (c = '-') && isPre p2b (r2.dropWhile wsChar)) = true
    rw [stripPre_append]
    have hd : (w1 ++ ('-' :: (w2 ++ (p2b ++ b)))).dropWhile wsChar
        = '-' :: (w2 ++ (p2b ++ b)) := by
      rw [dropWhile_ws_append _ _ hw1']
      exact dropWhile_cons_neg _ _ (by decide)
    show (match (w1 ++ ('-' :: (w2 ++ (p2b ++ b)))).dropWhile wsChar with
      | [] => false
      | c :: r2 => decide (c = '-') && isPre p2b (r2.dropWhile wsChar)) = true
    rw [hd]
    show (decide ('-' = '-') && isPre p2b ((w2 ++ (p2b ++ b)).dropWhile wsChar)) = true
    rw [Bool.and_eq_true, decide_eq_true_eq]
    refine ⟨rfl, ?_⟩
    have hd2 : (w2 ++ (p2b ++ b)).dropWhile wsChar = p2b ++ b := by
      rw [dropWhile_ws_append _ _ hw2']
      have hpb : p2b ++ b = 'i' :: ("nvalid argument supplied for foreach()".data ++ b) := rfl
      rw [hpb]
      rw [dropWhile_cons_neg _ _ (by decide)]
    rw [hd2]
    exact (isPre_iff _ _).2 ⟨b, rfl⟩

theorem critSearch_iff (L : List Char) :
    critSearch L = true ↔
      ((∃ a b, L = a ++ (p1 ++ b)) ∨ (∃ a b, L = a ++ (p3 ++ b)) ∨
       (∃ a b, L = a ++ (p4 ++ b)) ∨
       (∃ a w1 w2 b, L = a ++ (p2a ++ (w1 ++ ('-' :: (w2 ++ (p2b ++ b))))) ∧
          w1.all wsChar = true ∧ w2.all wsChar = true)) := by
  unfold critSearch
  rw [anySuffix_iff]
  constructor
  · rintro ⟨a, t, he, hf⟩
    simp only [critAt, Bool.or_eq_true] at hf
    rcases hf with ((h | h) | h) | h
    · obtain ⟨b, hb⟩ := (isPre_iff _ _).1 h
      exact Or.inl ⟨a, b, by rw [he, hb]⟩
    · obtain ⟨w1, w2, b, ht, hw1, hw2⟩ := (p2At_iff t).1 h
      exact Or.inr (Or.inr (Or.inr ⟨a, w1, w2, b, by rw [he, ht], hw1, hw2⟩))
    · obtain ⟨b, hb⟩ := (isPre_iff _ _).1 h
      exact Or.inr (Or.inl ⟨a, b, by rw [he, hb]⟩)
    · obtain ⟨b, hb⟩ := (isPre_iff _ _).1 h
      exact Or.inr (Or.inr (Or.inl ⟨a, b, by rw [he, hb]⟩))
  · rintro (⟨a, b, he⟩ | ⟨a, b, he⟩ | ⟨a, b, he⟩ | ⟨a, w1, w2, b, he, hw1, hw2⟩)
    · refine ⟨a, p1 ++ b, he, ?_⟩
      simp only [critAt, Bool.or_eq_true]
      exact Or.inl (Or.inl (Or.inl ((isPre_iff _ _).2 ⟨b, rfl⟩)))
    · refine ⟨a, p3 ++ b, he, ?_⟩
      simp only [critAt, Bool.or_eq_true]
      exact Or.inl (Or.inr ((isPre_iff _ _).2 ⟨b, rfl⟩))
    · refine ⟨a, p4 ++ b, he, ?_⟩
      simp only [critAt, Bool.or_eq_true]
      exact Or.inr ((isPre_iff _ _).2 ⟨b, rfl⟩)
    · refine ⟨a, p2a ++ (w1 ++ ('-' :: (w2 ++ (p2b ++ b)))), he, ?_⟩
      simp only [critAt, Bool.or_eq_true]
      exact Or.inl (Or.inl (Or.inr ((p2At_iff _).2 ⟨w1, w2, b, rfl, hw1, hw2⟩)))

theorem classify_eq_critical (v : PyVal) :
    classify v = .Critical ↔ isCritVal v = true := by
  by_cases h : isCritVal v = true
  · simp [classify, h]
  · have h' : isCritVal v = false := by
      revert h; cases isCritVal v <;> simp
    simp [classify, h']

theorem decide_classify (v : PyVal) :
    decide (classify v = Classification.Critical) = isCritVal v := by
  by_cases h : isCritVal v = true
  · simp [classify, h]
  · have h' : isCritVal v = false := by
      revert h; cases isCritVal v <;> simp
    simp [classify, h']

theorem renderInput_eq (v : PyVal) (h : truthy v = true) : renderInput v = v := by
  simp [renderInput, h]

theorem rowIsCritical_eq (v : PyVal) : rowIsCritical v = isCritVal v := by
  cases v with
  | vnone => decide
  | vbool b => cases b <;> decide
  | vint n =>
    by_cases h : n = 0
    · subst h; decide
    · have ht : truthy (PyVal.vint n) = true := by simp [truthy, h]
      unfold rowIsCritical isCritVal
      rw [renderInput_eq _ ht]
  | vstr s =>
    cases s with
    | mk l =>
      cases l with
      | nil => rfl
      | cons c cs => rfl

/-! ## Helper lemmas about the filter-state machine -/

theorem resolve_not_both (s : FState) :
    ((resolve s).show_only_crit && (resolve s).show_only_ok) = false := by
  obtain ⟨c, o, lt⟩ := s
  rcases lt with _ | t
  · cases c <;> cases o <;> decide
  · cases t <;> cases c <;> cases o <;> decide

theorem critBoxStep_ok (u : UserInput) (s : FState) :
    (critBoxStep u s).show_only_ok = s.show_only_ok := by
  unfold critBoxStep
  split
  · rfl
  · split <;> rfl

theorem critBoxStep_of_ok (u : UserInput) (s : FState) (h : s.show_only_ok = true) :
    critBoxStep u s = s := by
  unfold critBoxStep
  rw [h]
  simp

theorem okBoxStep_crit (u : UserInput) (s : FState) :
    (okBoxStep u s).show_only_crit = s.show_only_crit := by
  unfold okBoxStep
  split
  · rfl
  · split <;> rfl

theorem okBoxStep_of_crit (u : UserInput) (s : FState) (h : s.show_only_crit = true) :
    okBoxStep u s = s := by
  unfold okBoxStep
  rw [h]
  simp

theorem updateLast_crit (pc po : Bool) (s : FState) :
    (updateLast pc po s).show_only_crit = s.show_only_crit := by
  unfold updateLast
  split
  · rfl
  · split
    · rfl
    · split <;> rfl

theorem updateLast_ok (pc po : Bool) (s : FState) :
    (updateLast pc po s).show_only_ok = s.show_only_ok := by
  unfold updateLast
  split
  · rfl
  · split
    · rfl
    · split <;> rfl

theorem scriptRun_not_both (u : UserInput) (s : FState) :
    ((scriptRun u s).show_only_crit && (scriptRun u s).show_only_ok) = false := by
  unfold scriptRun
  rw [updateLast_crit, updateLast_ok]
  have h1 : ((resolve s).show_only_crit && (resolve s).show_only_ok) = false :=
    resolve_not_both s
  have h2 : ((critBoxStep u (resolve s)).show_only_crit
      && (critBoxStep u (resolve s)).show_only_ok) = false := by
    by_cases ho : (resolve s).show_only_ok = true
    · rw [critBoxStep_of_ok u _ ho]
      exact h1
    · have ho' : (resolve s).show_only_ok = false := by
        revert ho; cases (resolve s).show_only_ok <;> simp
      rw [critBoxStep_ok, ho']
      simp
  by_cases hc : (critBoxStep u (resolve s)).show_only_crit = true
  · rw [okBoxStep_of_crit u _ hc]
    exact h2
  · have hc' : (critBoxStep u (resolve s)).show_only_crit = false := by
      revert hc; cases (critBoxStep u (resolve s)).show_only_crit <;> simp
    rw [okBoxStep_crit, hc']
    simp

theorem runSeq_concat (us : List UserInput) (u : UserInput) (s0 : FState) :
    runSeq (us ++ [u]) s0 = scriptRun u (runSeq us s0) := by
  simp [runSeq, List.foldl_append]

/-! ## Helper lemma for ceiling division -/

theorem ceil_div_cast (a b : Nat) (hb : 0 < b) :
    ⌈(a : ℚ) / (b : ℚ)⌉₊ = (a + b - 1) / b := by
  rcases Nat.eq_zero_or_pos a with ha | ha
  · subst ha
    have hz : (b - 1) / b = 0 := Nat.div_eq_of_lt (by omega)
    simp [hz]
  · have hbq : (0 : ℚ) < (b : ℚ) := by exact_mod_cast hb
    have hmod := Nat.div_add_mod (a + b - 1) b
    have hrlt : (a + b - 1) % b < b := Nat.mod_lt _ hb
    obtain ⟨m, hm⟩ : ∃ m, (a + b - 1) / b = m + 1 := by
      have h1b : b ≤ a + b - 1 := by omega
      have h1 : 1 ≤ (a + b - 1) / b := (Nat.one_le_div_iff hb).2 h1b
      generalize hq : (a + b - 1) / b = q at h1
      exact ⟨q - 1, by omega⟩
    rw [hm]
    rw [hm] at hmod
    have hub : a ≤ b * (m + 1) := by
      generalize hX : b * (m + 1) = X at hmod
      omega
    have hlb : b * m < a := by
      have hexp : b * (m + 1) = b * m + b := by ring
      rw [hexp] at hmod
      generalize hX : b * m = X at hmod
      omega
    rw [Nat.ceil_eq_iff (by omega)]
    constructor
    · have : ((m + 1 - 1 : Nat) : ℚ) = (m : ℚ) := by push_cast; ring
      rw [this, lt_div_iff₀ hbq]
      have : (m : ℚ) * (b : ℚ) = ((b * m : Nat) : ℚ) := by push_cast; ring
      rw [this]
      exact_mod_cast hlb
    · rw [div_le_iff₀ hbq]
      have : ((m + 1 : Nat) : ℚ) * (b : ℚ) = ((b * (m + 1) : Nat) : ℚ) := by push_cast; ring
      rw [this]
      exact_mod_cast hub

/-! ## Claim theorems -/

/-- C1 counterexample: the reason text
`Error en el alta de la empresa.- Invalid argument supplied for foreach()`
(no space between the dot and the dash) is classified Critical by the code,
yet it contains none of the four literal phrases of the claim, case
insensitively (`containsL` is the substring test; `containsL_iff` relates it
to the existence of a decomposition).  The claimed equivalence is therefore
false at this input. -/
theorem classify_c1_counterexample :
    classify (.vstr cexReason) = .Critical ∧
    containsL p1 (lowerStr cexReason) = false ∧
    containsL p2lit (lowerStr cexReason) = false ∧
    containsL p3 (lowerStr cexReason) = false ∧
    containsL p4 (lowerStr cexReason) = false := by
  refine ⟨by decide, by decide, by decide, by decide, by decide⟩

/-- C1 (amended): classification returns Critical exactly when the
case-folded reason text contains phrase 1, 3 or 4 as a literal substring, or
contains `error en el alta de la empresa.` followed by optional whitespace,
a dash, optional whitespace, and `invalid argument supplied for foreach()`
(the regex `\.\s*-\s*` gap, where `\s` is Python's Unicode whitespace
class).  Every other value, `None` and the empty string included,
classifies Ok. -/
theorem classify_critical_iff (v : PyVal) :
    classify v = .Critical ↔
      ((∃ a b, lowerStr (pyRepr v) = a ++ (p1 ++ b)) ∨
       (∃ a b, lowerStr (pyRepr v) = a ++ (p3 ++ b)) ∨
       (∃ a b, lowerStr (pyRepr v) = a ++ (p4 ++ b)) ∨
       (∃ a w1 w2 b,
          lowerStr (pyRepr v) = a ++ (p2a ++ (w1 ++ ('-' :: (w2 ++ (p2b ++ b))))) ∧
          w1.all wsChar = true ∧ w2.all wsChar = true)) := by
  rw [classify_eq_critical]
  exact critSearch_iff (lowerStr (pyRepr v))

/-- C2: on every assembled page, `crit_count + ok_count` equals the number of
rows of the page, `crit_count` counts exactly the rows classified Critical,
and both counts depend only on the page's rows, never on
`totalMatchingRows`. -/
theorem pageResult_counts (rawRows : List Job) (total total' : Nat) :
    (assemble rawRows total).crit_count + (assemble rawRows total).ok_count
      = (assemble rawRows total).rows.length ∧
    (assemble rawRows total).crit_count
      = rawRows.countP (fun j => decide (classify j.motivoRechazo = Classification.Critical)) ∧
    (assemble rawRows total).crit_count = (assemble rawRows total').crit_count ∧
    (assemble rawRows total).ok_count = (assemble rawRows total').ok_count := by
  refine ⟨?_, ?_, rfl, rfl⟩
  · have h : rawRows.countP isCrit ≤ rawRows.length := List.countP_le_length isCrit
    simp only [assemble]
    omega
  · simp only [assemble]
    refine List.countP_congr fun j hj => ?_
    rw [decide_classify]
    exact Iff.rfl

/-- C3: the summary count, the show-only filters and the row highlighting all
classify a row identically: the highlighting decision (`str(val or "")`)
agrees with the mask (`astype(str)`) on every value, `None` and non-string
values included; the critical filter keeps exactly the rows the mask marks
critical; and `crit_count` counts exactly those rows. -/
theorem classification_consistency (rows : List Job) (t : Nat) (j : Job) (hj : j ∈ rows) :
    (∀ v : PyVal, rowIsCritical v = isCritVal v) ∧
    displayRows onlyCritState rows = rows.filter isCrit ∧
    (assemble rows t).crit_count = (rows.filter isCrit).length ∧
    (j ∈ displayRows onlyCritState rows ↔ isCrit j = true) ∧
    (j ∈ displayRows onlyOkState rows ↔ isCrit j = false) := by
  refine ⟨rowIsCritical_eq, rfl, ?_, ?_, ?_⟩
  · simp only [assemble]
    exact List.countP_eq_length_filter _ _
  · have hA : displayRows onlyCritState rows = rows.filter isCrit := rfl
    rw [hA]
    simp [List.mem_filter, hj]
  · have hB : displayRows onlyOkState rows = rows.filter (fun x => !isCrit x) := rfl
    rw [hB]
    simp [List.mem_filter, hj]

/-- C3 witness: the consistency statement instantiated on a one-row page with
a critical reason. -/
theorem classification_consistency_witness :
    (∀ v : PyVal, rowIsCritical v = isCritVal v) ∧
    displayRows onlyCritState [exJob] = [exJob].filter isCrit ∧
    (assemble [exJob] 5).crit_count = ([exJob].filter isCrit).length ∧
    (exJob ∈ displayRows onlyCritState [exJob] ↔ isCrit exJob = true) ∧
    (exJob ∈ displayRows onlyOkState [exJob] ↔ isCrit exJob = false) :=
  classification_consistency [exJob] 5 exJob (List.mem_singleton.mpr rfl)

/-- C4: the jump control's upper bound is `max(ceil(total / page_size), 1)`,
the next-page button is disabled exactly when `offset + page_size >= total`,
and the previous-page button exactly when `page <= 1`. -/
theorem pagination_math (total psz page : Nat) (hpsz : 0 < psz) :
    lastPage total psz = max ⌈(total : ℚ) / (psz : ℚ)⌉₊ 1 ∧
    (nextDisabled (offsetOf page psz) psz total = true ↔ offsetOf page psz + psz ≥ total) ∧
    (prevDisabled page = true ↔ page ≤ 1) := by
  refine ⟨?_, ?_, ?_⟩
  · unfold lastPage
    rw [ceil_div_cast total psz hpsz]
  · simp [nextDisabled, ge_iff_le]
  · simp [prevDisabled]

/-- C4 witness: pagination arithmetic at `total = 101`, `page_size = 50`,
`page = 2`. -/
theorem pagination_math_witness :
    lastPage 101 50 = max ⌈((101 : Nat) : ℚ) / ((50 : Nat) : ℚ)⌉₊ 1 ∧
    (nextDisabled (offsetOf 2 50) 50 101 = true ↔ offsetOf 2 50 + 50 ≥ 101) ∧
    (prevDisabled 2 = true ↔ 2 ≤ 1) :=
  pagination_math 101 50 2 (by norm_num)

/-- C5: after any sequence of script runs (each applying the guarded checkbox
interactions and the resolution of lines 201-204), the flags the display step
observes are never both true; and when both are true on entry, resolution
keeps the toggle recorded in `last_toggle` (Critical when none is
recorded). -/
theorem viewFilter_exclusive (s0 : FState) (us : List UserInput) (u : UserInput) :
    ((runSeq (us ++ [u]) s0).show_only_crit && (runSeq (us ++ [u]) s0).show_only_ok) = false ∧
    resolve ⟨true, true, some Toggle.ok⟩ = ⟨false, true, some Toggle.ok⟩ ∧
    resolve ⟨true, true, some Toggle.crit⟩ = ⟨true, false, some Toggle.crit⟩ ∧
    resolve ⟨true, true, none⟩ = ⟨true, false, none⟩ := by
  refine ⟨?_, rfl, rfl, rfl⟩
  rw [runSeq_concat]
  exact scriptRun_not_both u (runSeq us s0)

/-- C6: the show-only-critical subset and the show-only-ok subset of a page
partition that page: together they are a permutation of the page, each row
lies in the page exactly when it lies in one of the two, no row lies in both,
and with neither filter active the page is displayed whole. -/
theorem display_filter_law (rows : List Job) (j : Job) :
    (displayRows onlyCritState rows ++ displayRows onlyOkState rows).Perm rows ∧
    ((j ∈ displayRows onlyCritState rows ∨ j ∈ displayRows onlyOkState rows) ↔ j ∈ rows) ∧
    (decide (j ∈ displayRows onlyCritState rows)
      && decide (j ∈ displayRows onlyOkState rows)) = false ∧
    displayRows neitherState rows = rows := by
  have hA : displayRows onlyCritState rows = rows.filter isCrit := rfl
  have hB : displayRows onlyOkState rows = rows.filter (fun x => !isCrit x) := rfl
  refine ⟨?_, ?_, ?_, rfl⟩
  · rw [hA, hB]
    exact List.filter_append_perm isCrit rows
  · rw [hA, hB]
    simp only [List.mem_filter]
    rcases Bool.eq_false_or_eq_true (isCrit j) with hc | hc <;> simp [hc]
  · by_cases hj1 : j ∈ displayRows onlyCritState rows
    · have hj1' := hj1
      rw [hA] at hj1'
      have h1 : isCrit j = true := (List.mem_filter.1 hj1').2
      have hj2 : ¬j ∈ displayRows onlyOkState rows := by
        rw [hB]
        intro hmem
        have h2 := (List.mem_filter.1 hmem).2
        rw [h1] at h2
        simp at h2
      simp [hj2]
    · simp [hj1]

/-- C7 counterexample: with 101 matching rows and page size 50 the last page
is 3.  A jump request to page 4 raises no error and does not leave the page
unchanged: the bounded input clamps it and the button renders page 3 (neither
the requested page 4 nor the previously displayed page 1). -/
theorem goto_c7_counterexample :
    lastPage 101 50 = 3 ∧
    gotoPage 101 50 4 = 3 ∧
    decide (gotoPage 101 50 4 = 1) = false ∧
    decide (gotoPage 101 50 4 = 4) = false :=
  ⟨rfl, rfl, rfl, rfl⟩

/-- C7 (amended): a jump request is constrained by the bounded input into
`[1, lastPage]` — an in-range request goes to the requested page, an
out-of-range request is silently clamped to the nearest bound and rendered;
no rejection or error path exists. -/
theorem goto_clamped (total psz n : Nat) :
    1 ≤ gotoPage total psz n ∧
    gotoPage total psz n ≤ lastPage total psz ∧
    (1 ≤ n → n ≤ lastPage total psz → gotoPage total psz n = n) ∧
    (lastPage total psz < n → gotoPage total psz n = lastPage total psz) := by
  have hL : 1 ≤ lastPage total psz := le_max_right _ 1
  unfold gotoPage numberInputClamp
  generalize lastPage total psz = L at hL ⊢
  omega

/-- C7 witness: jump behaviour at `total = 101`, `page_size = 50`: the
in-range jump to 3 succeeds and the out-of-range jump to 4 lands on the last
page. -/
theorem goto_clamped_witness :
    gotoPage 101 50 3 = 3 ∧ gotoPage 101 50 4 = lastPage 101 50 :=
  ⟨(goto_clamped 101 50 3).2.2.1 (by norm_num) (by decide),
   (goto_clamped 101 50 4).2.2.2 (by decide)⟩

/-- C8: the default query window is the half-open interval
`[today - 30, today + 1)`; the count query and the page query share the very
same window predicate `start <= FechaAlta < end`, so a row with a timestamp
of today (platform filter passing) is matched by both. -/
theorem default_window (today : Int) (plat : Option String) (j : Job)
    (hplat : platPred plat j = true)
    (h1 : (today : ℚ) ≤ j.fechaAlta) (h2 : j.fechaAlta < (today : ℚ) + 1) :
    defaultWindowStart today = today - 30 ∧
    defaultWindowEnd today = today + 1 ∧
    (∀ ts : ℚ, inWindow ((defaultWindowStart today : Int) : ℚ)
        ((defaultWindowEnd today : Int) : ℚ) ts = true
      ↔ (((defaultWindowStart today : Int) : ℚ) ≤ ts ∧
         ts < ((defaultWindowEnd today : Int) : ℚ))) ∧
    countRowPred today plat j = true ∧
    pageRowPred today plat j = true := by
  have hcs : ((defaultWindowStart today : Int) : ℚ) = (today : ℚ) - 30 := by
    unfold defaultWindowStart
    push_cast
    ring
  have hce : ((defaultWindowEnd today : Int) : ℚ) = (today : ℚ) + 1 := by
    unfold defaultWindowEnd
    push_cast
    ring
  refine ⟨rfl, rfl, ?_, ?_, ?_⟩
  · intro ts
    simp [inWindow]
  · unfold countRowPred
    rw [hplat, Bool.and_true]
    simp only [inWindow, Bool.and_eq_true, decide_eq_true_eq]
    constructor
    · rw [hcs]; linarith
    · rw [hce]; linarith
  · unfold pageRowPred
    rw [hplat, Bool.and_true]
    simp only [inWindow, Bool.and_eq_true, decide_eq_true_eq]
    constructor
    · rw [hcs]; linarith
    · rw [hce]; linarith

/-- C8 witness: the window statement instantiated at `today = 0`, no platform
filter, and a job created half a day into today. -/
theorem default_window_witness :
    defaultWindowStart 0 = 0 - 30 ∧
    defaultWindowEnd 0 = 0 + 1 ∧
    (∀ ts : ℚ, inWindow ((defaultWindowStart 0 : Int) : ℚ)
        ((defaultWindowEnd 0 : Int) : ℚ) ts = true
      ↔ (((defaultWindowStart 0 : Int) : ℚ) ≤ ts ∧
         ts < ((defaultWindowEnd 0 : Int) : ℚ))) ∧
    countRowPred 0 none windowJob = true ∧
    pageRowPred 0 none windowJob = true :=
  default_window 0 none windowJob rfl (by norm_num [windowJob]) (by norm_num [windowJob])

/-- C9: a missing (`None`) count scalar yields a total of 0 through `or 0`,
while a present scalar passes through unchanged; with that 0 the pagination
behaves as for an empty window: one (empty) page, next button disabled. -/
theorem scalar_none_total (psz page : Nat) :
    totalFromScalar none = 0 ∧
    (∀ v : Nat, totalFromScalar (some v) = v) ∧
    lastPage (totalFromScalar none) psz = 1 ∧
    nextDisabled (offsetOf page psz) psz (totalFromScalar none) = true := by
  refine ⟨rfl, ?_, ?_, ?_⟩
  · intro v
    show (if v = 0 then 0 else v) = v
    by_cases h : v = 0
    · rw [if_pos h, h]
    · rw [if_neg h]
  · show lastPage 0 psz = 1
    unfold lastPage
    rcases Nat.eq_zero_or_pos psz with h | h
    · subst h; rfl
    · have hz : (0 + psz - 1) / psz = 0 := Nat.div_eq_of_lt (by omega)
      rw [hz]
      omega
  · simp [nextDisabled, totalFromScalar]

/-- C10: whichever filter state is active, the display subset is an
order-preserving subsequence of the page as the store returned it; filtering
never re-sorts. -/
theorem display_order_preserving (s : FState) (rows : List Job) :
    (displayRows s rows).Sublist rows := by
  unfold displayRows
  split
  · exact List.filter_sublist rows
  · split
    · exact List.filter_sublist rows
    · exact List.Sublist.refl rows

end EdiMonitor
